import Mathlib

/-!
# Car-Listing-Service: shallow embedding and verification

A shallow Lean embedding of the core of the Car-Listing-Service repository
(Facebook Marketplace scraper + PostgreSQL persistence), with theorems
settling the specification claims.

Embedding conventions:
* JavaScript strings are Lean `String`s; the regex steps of the source are
  embedded as explicit scans over `List Char` (`String.data`), faithful to
  the concrete regexes in the source including their matching order and the
  limited backtracking those particular regexes can perform.
* The browser environment (Puppeteer launch / navigation / `page.evaluate`)
  is modelled as an explicit `ScrapeEnv`: which effectful step succeeds, and
  the list of anchor elements the page's DOM contains, in document order.
* The PostgreSQL table `car_listings` (migration
  `001_create_car_listings.sql`) is a list of `Row`s; `CURRENT_TIMESTAMP` is
  an explicit `now : Nat` parameter; the migration's
  `update_updated_at_column` trigger (refreshing `updated_at` on every
  `UPDATE`) is part of the model of each updating statement.
* JavaScript `parseFloat` applied to a comma-stripped digit string is exact
  for the magnitudes at hand; it is modelled as a `Nat`, with `none`
  standing for the `NaN` produced by `parseFloat ""`.
-/

/-! ## Character classes used by the source's regexes -/

/-- JS `\d`, i.e. `[0-9]`. -/
def isAsciiDigit (c : Char) : Bool := 48 ≤ c.toNat && c.toNat ≤ 57

/-- JS `[A-Z]`. -/
def isUpperAZ (c : Char) : Bool := 65 ≤ c.toNat && c.toNat ≤ 90

/-- JS `\s` (the whitespace characters relevant here: space, tab, LF, VT, FF,
CR, NBSP). -/
def isJsSpace (c : Char) : Bool :=
  c = ' ' || c = '\t' || c = '\n' || c = '\x0b' || c = '\x0c' || c = '\r' || c = ' '

/-- The character class `[\s₱$€£]` from the price regex in
`normalizeListingData`. -/
def isPriceSep (c : Char) : Bool :=
  isJsSpace c || c = '₱' || c = '$' || c = '€' || c = '£'

/-- The character class `[\d,]` (digit group with comma separators). -/
def isDigitComma (c : Char) : Bool := isAsciiDigit c || c = ','

/-- JS `\w`, i.e. `[A-Za-z0-9_]`; used for the `\b` word boundaries of the
year regex. -/
def isWordChar (c : Char) : Bool :=
  isAsciiDigit c || isUpperAZ c || (97 ≤ c.toNat && c.toNat ≤ 122) || c = '_'

/-- Numeric value of a digit string (the effect of `parseFloat`/`parseInt`
on a string of ASCII digits). -/
def digitsVal (ds : List Char) : Nat :=
  ds.foldl (fun a c => 10 * a + (c.toNat - 48)) 0

/-- Substring containment, as in the CSS attribute selector
`a[href*="/marketplace/item/"]`. -/
def containsSub (needle : List Char) : List Char → Bool
  | [] => needle.isEmpty
  | c :: rest => needle.isPrefixOf (c :: rest) || containsSub needle rest

/-! ## Price parsing

`normalizeListingData` runs `rawData.price_raw.match(/([A-Z]{3})?[\s₱$€£]*([\d,]+)/)`.
`tryPriceAt` is one attempt of this regex at a fixed position (including the
only backtracking point: the optional `([A-Z]{3})?` group), `findPriceMatch`
is the left-to-right scan of `String.prototype.match`. -/

/-- `[\s₱$€£]*([\d,]+)`: skip separators greedily, then require a nonempty
digit-or-comma group (greedy). Returns the captured group. The two classes
are disjoint, so the greedy scan is exact. -/
def sepDigits (s : List Char) : Option (List Char) :=
  let t := s.dropWhile isPriceSep
  let g := t.takeWhile isDigitComma
  if g.isEmpty then none else some g

/-- One attempt of `([A-Z]{3})?[\s₱$€£]*([\d,]+)` at the head of `s`:
first with the three-uppercase-letter group, then (on failure) with the
group empty. Returns (currency capture, digit-group capture). -/
def tryPriceAt (s : List Char) : Option (Option (List Char) × List Char) :=
  match s with
  | c1 :: c2 :: c3 :: rest =>
    if isUpperAZ c1 && isUpperAZ c2 && isUpperAZ c3 then
      match sepDigits rest with
      | some g => some (some [c1, c2, c3], g)
      | none => (sepDigits s).map (fun g => (none, g))
    else (sepDigits s).map (fun g => (none, g))
  | _ => (sepDigits s).map (fun g => (none, g))

/-- Leftmost match of the price regex (the scan performed by `match`). -/
def findPriceMatch : List Char → Option (Option (List Char) × List Char)
  | [] => none
  | c :: rest =>
    match tryPriceAt (c :: rest) with
    | some m => some m
    | none => findPriceMatch rest

/-- Result of the price step of `normalizeListingData`:
`currency = priceMatch[1] || 'PHP'` and
`price = parseFloat(priceMatch[2].replace(/,/g, ''))`.
`amount = none` is the `NaN` produced when the matched group consists of
commas only. -/
structure ParsedPrice where
  currency : String
  amount : Option Nat
deriving DecidableEq, Repr

/-- The price step of `FacebookScraper.normalizeListingData` (spec name
`parsePrice`): `none` exactly when the regex does not match and the
candidate is discarded. -/
def parsePrice (text : String) : Option ParsedPrice :=
  match findPriceMatch text.data with
  | none => none
  | some (cur?, g) =>
    let ds := g.filter isAsciiDigit
    some { currency := (cur?.map String.mk).getD "PHP",
           amount := if ds.isEmpty then none else some (digitsVal ds) }

/-! ## Year parsing: `title.match(/\b(19|20)\d{2}\b/)` -/

/-- One attempt of `\b(19|20)\d{2}\b` at the head of `l`, where `prev` is
the character just before this position (`none` at the start of the
string); `\b` holds before the match iff `prev` is not a word character,
and after it iff the following character (if any) is not one. -/
def yearAt (prev : Option Char) (l : List Char) : Option (List Char) :=
  match l with
  | c1 :: c2 :: c3 :: c4 :: rest =>
    if (match prev with | none => true | some p => !isWordChar p)
        && ((c1 = '1' && c2 = '9') || (c1 = '2' && c2 = '0'))
        && isAsciiDigit c3 && isAsciiDigit c4
        && (match rest with | [] => true | c5 :: _ => !isWordChar c5) then
      some [c1, c2, c3, c4]
    else none
  | _ => none

/-- Leftmost match of the year regex. -/
def findYearMatch (prev : Option Char) : List Char → Option (List Char)
  | [] => none
  | c :: rest =>
    match yearAt prev (c :: rest) with
    | some m => some m
    | none => findYearMatch (some c) rest

/-- The year step of `normalizeListingData` (spec name `parseYear`):
`yearMatch ? parseInt(yearMatch[0], 10) : null`. -/
def parseYear (title : String) : Option Nat :=
  (findYearMatch none title.data).map digitsVal

/-! ## Mileage parsing: `title.match(/(\d+[,.]?\d*)\s*(k|km|miles)/i)` -/

/-- Case-insensitive match of the unit alternation `(k|km|miles)` at the
head of `s`; the `k` alternative is tried first, so it wins whenever the
next character is `k`/`K` (hence `"25,000 km"` matches as `"25,000 k"`).
Returns the matched characters. -/
def mileageUnitAt (s : List Char) : Option (List Char) :=
  match s with
  | c :: rest =>
    if c = 'k' || c = 'K' then some [c]
    else
      match rest with
      | c2 :: c3 :: c4 :: c5 :: _ =>
        if (c = 'm' || c = 'M') && (c2 = 'i' || c2 = 'I') && (c3 = 'l' || c3 = 'L')
            && (c4 = 'e' || c4 = 'E') && (c5 = 's' || c5 = 'S') then
          some [c, c2, c3, c4, c5]
        else none
      | _ => none
  | [] => none

/-- One attempt of `(\d+[,.]?\d*)\s*(k|km|miles)` at the head of `l`:
greedy digits, an optional `,` or `.` (which, if consumed unsuccessfully,
has no viable empty-option fallback because the separator character can
match neither `\s` nor a unit), more greedy digits, greedy spaces, then the
unit. Returns the whole match (`mileageMatch[0]`, stored verbatim). -/
def tryMileageAt (l : List Char) : Option (List Char) :=
  let d1 := l.takeWhile isAsciiDigit
  if d1.isEmpty then none
  else
    let s1 := l.drop d1.length
    match s1 with
    | sep :: s2 =>
      if sep = ',' || sep = '.' then
        let d2 := s2.takeWhile isAsciiDigit
        let s3 := s2.drop d2.length
        let sp := s3.takeWhile isJsSpace
        (mileageUnitAt (s3.drop sp.length)).map (fun u => d1 ++ [sep] ++ d2 ++ sp ++ u)
      else
        let sp := s1.takeWhile isJsSpace
        (mileageUnitAt (s1.drop sp.length)).map (fun u => d1 ++ sp ++ u)
    | [] => none

/-- Leftmost match of the mileage regex. -/
def findMileageMatch : List Char → Option (List Char)
  | [] => none
  | c :: rest =>
    match tryMileageAt (c :: rest) with
    | some m => some m
    | none => findMileageMatch rest

/-- The mileage step of `normalizeListingData` (spec name `parseMileage`):
the whole first match, stored verbatim, else null. -/
def parseMileage (title : String) : Option String :=
  (findMileageMatch title.data).map String.mk

/-! ## `extractListingId`: `url.match(/\/item\/(\d+)/)` -/

/-- Leftmost occurrence of `/item/` followed by at least one digit;
captures the maximal digit run. -/
def itemIdOf : List Char → Option (List Char)
  | [] => none
  | c :: rest =>
    if "/item/".data.isPrefixOf (c :: rest) then
      let ds := ((c :: rest).drop 6).takeWhile isAsciiDigit
      if ds.isEmpty then itemIdOf rest else some ds
    else itemIdOf rest

/-- `FacebookScraper.extractListingId`. -/
def extractListingId (url : String) : Option String :=
  (itemIdOf url.data).map String.mk

/-! ## Normalization: `FacebookScraper.normalizeListingData` -/

/-- The raw object handed to `normalizeListingData` (the extractor produces
`title`, `price_raw`, `url`, `image_url`; `location` and `description` are
read but never set by the extractor, hence default `none`). -/
structure RawData where
  title : String
  price_raw : String
  url : String
  image_url : Option String
  location : Option String := none
  description : Option String := none
deriving DecidableEq, Repr

/-- The normalized listing object returned by `normalizeListingData`.
`price = none` encodes the `NaN` of `parseFloat ""`. -/
structure NormalizedListing where
  title : String
  price : Option Nat
  currency : String
  year : Option Nat
  mileage : Option String
  location : String
  source_url : String
  listing_id : Option String
  image_url : Option String
  description : Option String
deriving DecidableEq, Repr

/-- `FacebookScraper.normalizeListingData`: price/currency via the price
regex (null on no match — candidate discarded), year and mileage from the
title, `location` defaulting to `'Manila'`, `listing_id` recomputed from
the url. -/
def normalizeListingData (rawData : RawData) : Option NormalizedListing :=
  match parsePrice rawData.price_raw with
  | none => none
  | some p =>
    some { title := rawData.title
           price := p.amount
           currency := p.currency
           year := parseYear rawData.title
           mileage := parseMileage rawData.title
           location := rawData.location.getD "Manila"
           source_url := rawData.url
           listing_id := extractListingId rawData.url
           image_url := rawData.image_url
           description := rawData.description }

/-! ## DOM model and the in-page extractor

`FacebookScraper.scrape` runs
`document.querySelectorAll('a[href*="/marketplace/item/"]')` inside
`page.evaluate` and walks each anchor. The DOM is modelled as the list of
all anchor elements in document order; for each anchor, its 5th ancestor
(the candidate container) is given directly: `none` when fewer than five
ancestor levels exist (`container` became null and the element is
skipped). -/

/-- The first `img` inside a container: `src` (potentially the empty
string) and the `data-src` attribute (`none` when absent). -/
structure ImgEl where
  src : String
  dataSrc : Option String
deriving DecidableEq, Repr

/-- The 5th-ancestor container of an anchor: the trimmed-later `textContent`
of each of its `span` descendants in document order, and its first `img`
if any. -/
structure ContainerEl where
  spanTexts : List String
  img : Option ImgEl
deriving DecidableEq, Repr

/-- An anchor element of the page. -/
structure AnchorEl where
  href : String
  container : Option ContainerEl
deriving DecidableEq, Repr

/-- The page DOM: all anchor elements, in document order. -/
abbrev Dom := List AnchorEl

/-- The raw candidate pushed by the extractor. -/
structure RawCandidate where
  title : String
  price_raw : String
  url : String
  image_url : Option String
  listing_id : String
deriving DecidableEq, Repr

/-- `/^(PHP|₱|\$|€|£)\s*[\d,]+/.test(t)` — the prefixes have pairwise
distinct first characters, so alternation order is irrelevant. -/
def priceLikeA (l : List Char) : Bool :=
  ["PHP".data, "₱".data, "$".data, "€".data, "£".data].any fun p =>
    p.isPrefixOf l &&
      (match (l.drop p.length).dropWhile isJsSpace with
       | c :: _ => isDigitComma c
       | [] => false)

/-- `/^[\d,]+\s*(PHP|₱)/.test(t)` via maximal munch (exact for this regex:
giving back a digit/comma can never let `\s*(PHP|₱)` succeed). -/
def priceLikeB (l : List Char) : Bool :=
  let d := l.takeWhile isDigitComma
  !d.isEmpty &&
    (let u := (l.drop d.length).dropWhile isJsSpace
     "PHP".data.isPrefixOf u || "₱".data.isPrefixOf u)

/-- The price-candidate test of the extractor:
`/^(PHP|₱|\$|€|£)\s*[\d,]+/.test(t) || /^[\d,]+\s*(PHP|₱)/.test(t)`. -/
def isPriceText (t : String) : Bool := priceLikeA t.data || priceLikeB t.data

/-- `/^(PHP|₱|\$|€|£)/.test(t)`. -/
def startsWithCurrency (t : String) : Bool :=
  ["PHP".data, "₱".data, "$".data, "€".data, "£".data].any (·.isPrefixOf t.data)

/-- The title-candidate test of the extractor:
`t.length > 10 && !t.includes('›') && !/^(PHP|₱|\$|€|£)/.test(t) && t !== priceText`
(where `priceText` may be `undefined`, in which case `t !== priceText`
is vacuously true). -/
def isTitleText (priceText : Option String) (t : String) : Bool :=
  decide (10 < t.length) && !(t.contains '›') && !startsWithCurrency t
    && !(priceText == some t)

/-- `imgElement ? (imgElement.src || imgElement.getAttribute('data-src')) : null`. -/
def imageOf (img : Option ImgEl) : Option String :=
  match img with
  | none => none
  | some im => if im.src = "" then im.dataSrc else some im.src

/-- The per-anchor emission decision of the extractor's `forEach` body,
after the id has been recorded: walk to the 5th-ancestor container (skip
when the walk hit null), collect the trimmed nonempty `span` texts,
classify price and title fragments, take the first image, and emit only
under the `priceText && titleText && linkElement.href` guard. The source
computes `titleText` even when `priceText` is undefined (its predicate
then has a vacuous `t !== priceText` conjunct), but emits nothing in that
case; consulting the title search only once a price fragment exists is
output-equivalent. -/
def candidateOf (a : AnchorEl) (listingId : String) : Option RawCandidate :=
  match a.container with
  | none => none
  | some cont =>
    let texts := (cont.spanTexts.map String.trim).filter (fun t => 0 < t.length)
    match texts.find? isPriceText with
    | none => none
    | some p =>
      match texts.find? (isTitleText (some p)) with
      | none => none
      | some t =>
        if a.href = "" then none
        else some { title := t, price_raw := p, url := a.href,
                    image_url := imageOf cont.img, listing_id := listingId }

/-- One iteration of the extractor's `forEach` body over the anchors that
matched the selector. State: (`seenIds`, `results`). Order of the guards is
the source's: listing-id regex, duplicate check (the id is added to
`seenIds` before anything else can fail), `maxListings` cap, then the
container walk / fragment classification / emission guard
(`candidateOf`). -/
def extractStep (maxListings : Nat) (st : List String × List RawCandidate)
    (a : AnchorEl) : List String × List RawCandidate :=
  let (seen, results) := st
  match itemIdOf a.href.data with
  | none => st
  | some idChars =>
    let listingId := String.mk idChars
    if seen.contains listingId then st
    else
      let seen' := listingId :: seen
      if maxListings ≤ results.length then (seen', results)
      else
        match candidateOf a listingId with
        | none => (seen', results)
        | some cand => (seen', results ++ [cand])

/-- The in-page extractor of `FacebookScraper.scrape`: filter the anchors by
the selector `a[href*="/marketplace/item/"]`, then fold the `forEach`
body. -/
def extractListings (dom : Dom) (maxListings : Nat) : List RawCandidate :=
  let links := dom.filter (fun a => containsSub "/marketplace/item/".data a.href.data)
  (links.foldl (extractStep maxListings) ([], [])).2

/-! ## The scrape run: `FacebookScraper.scrape` -/

/-- The effectful environment of one scrape run: whether `puppeteer.launch`
succeeds, whether the k-th `page.goto` settles within the configured
timeout, whether `page.evaluate` (extraction) succeeds, and the page DOM. -/
structure ScrapeEnv where
  launchOk : Bool
  navOk : Nat → Bool
  evalOk : Bool
  dom : Dom

/-- Run-level errors of the scraper. -/
inductive ScrapeError
  | launchError
  | navigationTimeout
  | evaluationError
deriving DecidableEq, Repr

/-- Observable trace of one `scrape()` call: its result, how many
`page.goto` attempts were made, whether the `finally` cleanup ran, and
whether a browser was launched / closed. -/
structure ScrapeTrace where
  result : Except ScrapeError (List NormalizedListing)
  navAttempts : Nat
  cleanupCalled : Bool
  browserLaunched : Bool
  browserClosed : Bool
deriving Repr

/-- The normalization loop of `scrape`: each raw item through
`normalizeListingData`, keeping the non-null ones. -/
def normalizeAll (raws : List RawCandidate) : List NormalizedListing :=
  raws.filterMap fun item =>
    normalizeListingData { title := item.title, price_raw := item.price_raw,
                           url := item.url, image_url := item.image_url }

namespace FacebookScraper

/-- `FacebookScraper.scrape`: initialize the browser, navigate once
(`page.goto` is called exactly once; there is no retry loop), extract, and
normalize; every path runs the `finally` block, whose `cleanup()` closes
the browser exactly when one was launched (`if (this.browser)`). The
selector waits and `autoScroll` only shape the DOM already captured in
`env.dom`. -/
def scrape (maxListings : Nat) (env : ScrapeEnv) : ScrapeTrace :=
  if env.launchOk then
    if env.navOk 0 then
      if env.evalOk then
        { result := .ok (normalizeAll (extractListings env.dom maxListings)),
          navAttempts := 1, cleanupCalled := true,
          browserLaunched := true, browserClosed := true }
      else
        { result := .error .evaluationError, navAttempts := 1,
          cleanupCalled := true, browserLaunched := true, browserClosed := true }
    else
      { result := .error .navigationTimeout, navAttempts := 1,
        cleanupCalled := true, browserLaunched := true, browserClosed := true }
  else
    { result := .error .launchError, navAttempts := 0, cleanupCalled := true,
      browserLaunched := false, browserClosed := false }

end FacebookScraper

/-! ## Persistence: the `car_listings` table and `CarListingModel`

The table of migration `001_create_car_listings.sql`. NOT NULL columns:
`title`, `price`, `source_url`; `source_url` is UNIQUE and the upsert's
conflict key. The migration installs trigger `update_car_listings_updated_at`
(`BEFORE UPDATE ... EXECUTE FUNCTION update_updated_at_column()`), so every
row actually updated by an `UPDATE` statement gets
`updated_at = CURRENT_TIMESTAMP`. PostgreSQL `NUMERIC` admits `NaN`, which
`parseFloat('')` can produce upstream, hence `PgNum`. -/

/-- A PostgreSQL `NUMERIC(12,2)` value as produced by this pipeline. -/
inductive PgNum
  | nan
  | val (n : Nat)
deriving DecidableEq, Repr

/-- A row of `car_listings`. -/
structure Row where
  id : Nat
  title : String
  price : PgNum
  currency : String
  year : Option Nat
  mileage : Option String
  location : Option String
  source_url : String
  listing_id : Option String
  image_url : Option String
  description : Option String
  created_at : Nat
  updated_at : Nat
  last_scraped_at : Nat
  is_active : Bool
deriving DecidableEq, Repr

/-- The committed state of the table. -/
abbrev DB := List Row

/-- The argument object of `CarListingModel.upsert` after destructuring;
`none` is a missing / `null` JS value (a SQL NULL parameter). The
destructuring default `currency = 'PHP'` is applied inside `upsert`. -/
structure ListingInput where
  title : Option String
  price : Option PgNum
  currency : Option String
  year : Option Nat
  mileage : Option String
  location : Option String
  source_url : Option String
  listing_id : Option String
  image_url : Option String
  description : Option String
deriving DecidableEq, Repr

/-- Storage errors surfaced by the model layer. -/
inductive DBError
  | notNullViolation
deriving DecidableEq, Repr

/-- `SERIAL` id for a fresh row. -/
def nextId (db : DB) : Nat := db.foldl (fun m r => max m r.id) 0 + 1

namespace CarListingModel

/-- `CarListingModel.upsert`:
`INSERT ... VALUES (..., CURRENT_TIMESTAMP) ON CONFLICT (source_url) DO
UPDATE SET title, price, currency, year, mileage, location, listing_id,
image_url, description, last_scraped_at = CURRENT_TIMESTAMP,
is_active = TRUE RETURNING *`. Issued through `db.query`, i.e. the shared
pool: the statement runs on an autocommitting pool connection, so its
effect lands directly in the committed state. The NOT NULL constraints of
the schema reject a NULL `title`, `price` or `source_url`; the
`updated_at` trigger fires on the conflict-update. -/
def upsert (now : Nat) (db : DB) (l : ListingInput) : Except DBError (DB × Row) :=
  match l.title, l.price, l.source_url with
  | some title, some price, some url =>
    let curr := l.currency.getD "PHP"
    match db.find? (fun r => r.source_url == url) with
    | some r0 =>
      let r1 : Row :=
        { r0 with title := title, price := price, currency := curr,
                  year := l.year, mileage := l.mileage, location := l.location,
                  listing_id := l.listing_id, image_url := l.image_url,
                  description := l.description, last_scraped_at := now,
                  is_active := true, updated_at := now }
      .ok (db.map (fun r => if r.source_url == url then
              { r with title := title, price := price, currency := curr,
                       year := l.year, mileage := l.mileage, location := l.location,
                       listing_id := l.listing_id, image_url := l.image_url,
                       description := l.description, last_scraped_at := now,
                       is_active := true, updated_at := now }
            else r), r1)
    | none =>
      let r1 : Row :=
        { id := nextId db, title := title, price := price, currency := curr,
          year := l.year, mileage := l.mileage, location := l.location,
          source_url := url, listing_id := l.listing_id, image_url := l.image_url,
          description := l.description, created_at := now, updated_at := now,
          last_scraped_at := now, is_active := true }
      .ok (db ++ [r1], r1)
  | _, _, _ => .error .notNullViolation

/-- `CarListingModel.bulkUpsert`. The source checks out a dedicated client
and issues `BEGIN` / `COMMIT` / `ROLLBACK` on it, but each loop iteration
calls `this.upsert(listing)`, which issues its statement through
`db.query` — the shared pool, a different autocommitting connection.
Therefore every successful upsert is already committed when a later one
fails, and the `ROLLBACK` (which this model consequently need not
represent as undoing anything) removes nothing: on error the store is
returned as already mutated by the preceding upserts. -/
def bulkUpsert (now : Nat) (db : DB) : List ListingInput → DB × Except DBError (List Row)
  | [] => (db, .ok [])
  | l :: rest =>
    match upsert now db l with
    | .error e => (db, .error e)
    | .ok (db', r) =>
      match bulkUpsert now db' rest with
      | (db'', .ok rs) => (db'', .ok (r :: rs))
      | (db'', .error e) => (db'', .error e)

/-- `CarListingModel.findById`:
`SELECT * FROM car_listings WHERE id = $1 AND is_active = TRUE`,
returning `rows[0] || null`. -/
def findById (db : DB) (id : Nat) : Option Row :=
  db.find? (fun r => r.id == id && r.is_active)

/-- The update payload after `validateUpdateData` coerced `price` and
`year`; only the model's `allowedFields` are representable. -/
structure UpdateFields where
  title : Option String := none
  price : Option Nat := none
  currency : Option String := none
  year : Option Nat := none
  mileage : Option String := none
  location : Option String := none
  description : Option String := none
  image_url : Option String := none
deriving DecidableEq, Repr

/-- Whether the payload carries at least one allowed field
(`fields.length === 0` throws otherwise). -/
def UpdateFields.hasField (u : UpdateFields) : Bool :=
  u.title.isSome || u.price.isSome || u.currency.isSome || u.year.isSome ||
  u.mileage.isSome || u.location.isSome || u.description.isSome || u.image_url.isSome

/-- Errors of `CarListingModel.update`. -/
inductive UpdateError
  | noValidFields
deriving DecidableEq, Repr

/-- Apply the `SET` clauses of `CarListingModel.update` to a row, plus the
`updated_at` trigger. -/
def applyUpdate (now : Nat) (u : UpdateFields) (r : Row) : Row :=
  { r with title := u.title.getD r.title,
           price := (u.price.map PgNum.val).getD r.price,
           currency := u.currency.getD r.currency,
           year := match u.year with | some y => some y | none => r.year,
           mileage := match u.mileage with | some m => some m | none => r.mileage,
           location := match u.location with | some s => some s | none => r.location,
           description := match u.description with | some s => some s | none => r.description,
           image_url := match u.image_url with | some s => some s | none => r.image_url,
           updated_at := now }

/-- `CarListingModel.update`: throws when no allowed field is present, else
`UPDATE car_listings SET ... WHERE id = $1 AND is_active = TRUE RETURNING *`
and `rows[0] || null`. Rows not matching the `WHERE` clause are untouched
(the trigger does not fire for them). -/
def update (now : Nat) (db : DB) (id : Nat) (u : UpdateFields) :
    Except UpdateError (DB × Option Row) :=
  if u.hasField then
    .ok (db.map (fun r => if r.id == id && r.is_active then applyUpdate now u r else r),
         (db.find? (fun r => r.id == id && r.is_active)).map (applyUpdate now u))
  else .error .noValidFields

/-- `CarListingModel.delete` (soft delete):
`UPDATE car_listings SET is_active = FALSE WHERE id = $1 RETURNING id`,
result `rowCount > 0`. The `WHERE` clause tests only the id, so the
statement (and the `updated_at` trigger) also hits already-inactive rows. -/
def delete (now : Nat) (db : DB) (id : Nat) : DB × Bool :=
  (db.map (fun r => if r.id == id then { r with is_active := false, updated_at := now } else r),
   db.any (fun r => r.id == id))

end CarListingModel

/-! ## Service layer fragments (`CarListingService`) -/

/-- `CarListingService.getListingById`: 404 when the model returns null. -/
def getListingById (db : DB) (id : Nat) : Except Nat Row :=
  match CarListingModel.findById db id with
  | none => .error 404
  | some r => .ok r

/-- The status outcome of `CarListingService.updateListing` after
validation passed: 404 (`'Listing not found or inactive'`) when the model
returns null, 500 when the model throws. -/
def updateListingStatus (now : Nat) (db : DB) (id : Nat)
    (u : CarListingModel.UpdateFields) : Except Nat Row :=
  match CarListingModel.update now db id u with
  | .error _ => .error 500
  | .ok (_, none) => .error 404
  | .ok (_, some r) => .ok r

/-- `CarListingService.deleteListing`: 404 when the model reports
`deleted = false`, success otherwise. -/
def deleteListing (now : Nat) (db : DB) (id : Nat) : DB × Except Nat Unit :=
  let (db', deleted) := CarListingModel.delete now db id
  (db', if deleted then .ok () else .error 404)

/-! ## `scrapeAndStore` -/

/-- The success payload of `scrapeAndStore` plus the observation whether
the persistence sink was invoked at all. -/
structure StoreOutcome where
  success : Bool
  count : Nat
  persistCalled : Bool
deriving DecidableEq, Repr

/-- Run-level error of `scrapeAndStore`. -/
inductive RunError
  | scrapeFailed (e : ScrapeError)
  | storeFailed (e : DBError)
deriving DecidableEq, Repr

/-- How `scrapeAndStore` hands a `NormalizedListing` to
`CarListingModel.upsert` (field-for-field; a `NaN` price is passed
through as the NUMERIC `NaN`). -/
def ListingInput.ofNormalized (l : NormalizedListing) : ListingInput :=
  { title := some l.title,
    price := some (match l.price with | some n => .val n | none => .nan),
    currency := some l.currency, year := l.year, mileage := l.mileage,
    location := some l.location, source_url := some l.source_url,
    listing_id := l.listing_id, image_url := l.image_url,
    description := l.description }

/-- `scrapeAndStore`: run the scraper; an empty listing batch returns
`{ success: true, count: 0 }` without touching the database; otherwise the
batch goes to `CarListingModel.bulkUpsert` and the stored count is
reported; every error propagates. -/
def scrapeAndStore (maxListings now : Nat) (env : ScrapeEnv) (db : DB) :
    DB × Except RunError StoreOutcome :=
  match (FacebookScraper.scrape maxListings env).result with
  | .error e => (db, .error (.scrapeFailed e))
  | .ok listings =>
    if listings.isEmpty then
      (db, .ok { success := true, count := 0, persistCalled := false })
    else
      match CarListingModel.bulkUpsert now db (listings.map ListingInput.ofNormalized) with
      | (db', .ok stored) =>
        (db', .ok { success := true, count := stored.length, persistCalled := true })
      | (db', .error e) => (db', .error (.storeFailed e))

/-! ## Concrete fixtures -/

/-- A storable listing input (all NOT NULL columns present). -/
def goodInput : ListingInput :=
  { title := some "2020 Toyota Corolla Altis", price := some (.val 850000),
    currency := some "PHP", year := some 2020, mileage := none,
    location := some "Manila",
    source_url := some "https://www.facebook.com/marketplace/item/111",
    listing_id := some "111", image_url := none, description := none }

/-- A listing input violating the `title` NOT NULL constraint. -/
def badInput : ListingInput :=
  { title := none, price := some (.val 1), currency := some "PHP",
    year := none, mileage := none, location := none,
    source_url := some "https://www.facebook.com/marketplace/item/222",
    listing_id := some "222", image_url := none, description := none }

/-- An environment whose first navigation attempt times out but whose
second would settle. -/
def envNavFail : ScrapeEnv :=
  { launchOk := true, navOk := fun k => !(k == 0), evalOk := true, dom := [] }

/-- An environment where everything succeeds and the page holds no
anchors. -/
def envEmptyPage : ScrapeEnv :=
  { launchOk := true, navOk := fun _ => true, evalOk := true, dom := [] }

/-! ## C1 — `bulkUpsert` is not all-or-nothing -/

/-- C1 (code bug, evaluation at the failing input): on an empty table, the
batch `[goodInput, badInput]` fails on its second element, yet the first
element's row is present in the store afterwards. The `BEGIN`/`ROLLBACK`
issued on the checked-out client govern no statement, because
`CarListingModel.upsert` sends its query through the shared pool; the
batch is therefore not rolled back as a unit. -/
theorem bulkUpsert_not_atomic :
    (CarListingModel.bulkUpsert 7 [] [goodInput, badInput]).2 = .error .notNullViolation
    ∧ (CarListingModel.bulkUpsert 7 [] [goodInput, badInput]).1.map (fun r => r.source_url)
        = ["https://www.facebook.com/marketplace/item/111"] :=
  ⟨rfl, rfl⟩

/-! ## C2 — navigation timeout: no retry is performed -/

/-- C2 (counterexample to the claim as stated): the claim says a first
navigation timeout is followed by exactly one bounded retry and the error
reaches the caller only when the retry also times out. In `envNavFail` a
second attempt would settle (`navOk 1 = true`), yet the run fails with
`NavigationTimeout` after exactly one `page.goto` call: `scrape` contains
no retry. -/
theorem scrape_retries_cex :
    (FacebookScraper.scrape 50 envNavFail).result = .error .navigationTimeout
    ∧ (FacebookScraper.scrape 50 envNavFail).navAttempts = 1
    ∧ envNavFail.navOk 1 = true :=
  ⟨rfl, rfl, rfl⟩

/-- C2 (amended): when the browser launches but the single navigation
attempt does not settle within the configured timeout, the scraper makes
no retry: `page.goto` is called exactly once, the `NavigationTimeout`
propagates immediately to the caller, and the cleanup still runs. -/
theorem scrape_single_nav_attempt (maxL : Nat) (env : ScrapeEnv)
    (h1 : env.launchOk = true) (h2 : env.navOk 0 = false) :
    (FacebookScraper.scrape maxL env).result = .error .navigationTimeout
    ∧ (FacebookScraper.scrape maxL env).navAttempts = 1
    ∧ (FacebookScraper.scrape maxL env).cleanupCalled = true := by
  simp [FacebookScraper.scrape, h1, h2]

/-- Witness for `scrape_single_nav_attempt` at `envNavFail`. -/
theorem scrape_single_nav_attempt_witness :
    (FacebookScraper.scrape 50 envNavFail).result = .error .navigationTimeout
    ∧ (FacebookScraper.scrape 50 envNavFail).navAttempts = 1
    ∧ (FacebookScraper.scrape 50 envNavFail).cleanupCalled = true :=
  scrape_single_nav_attempt 50 envNavFail rfl rfl

/-! ## C6 — cleanup on every exit path -/

/-- C6: on every exit path of a scrape run — success, extraction failure,
navigation timeout, launch failure — the `finally` block invokes
`cleanup()`, and the browser ends up closed exactly when one was launched:
a launched browser never leaks. -/
theorem scrape_cleanup_every_path (maxL : Nat) (env : ScrapeEnv) :
    (FacebookScraper.scrape maxL env).cleanupCalled = true
    ∧ (FacebookScraper.scrape maxL env).browserClosed
        = (FacebookScraper.scrape maxL env).browserLaunched := by
  cases h1 : env.launchOk <;> cases h2 : env.navOk 0 <;> cases h3 : env.evalOk <;>
    simp [FacebookScraper.scrape, h1, h2, h3]

/-! ## C7 — empty extraction is a successful run -/

/-- C7: when the run itself succeeds and extraction yields zero candidates,
`scrapeAndStore` completes successfully with count 0, raises no error, and
never touches the persistence layer (the store is returned unchanged and
`persistCalled = false`). -/
theorem scrapeAndStore_empty_ok (maxL now : Nat) (env : ScrapeEnv) (db : DB)
    (h1 : env.launchOk = true) (h2 : env.navOk 0 = true) (h3 : env.evalOk = true)
    (h4 : extractListings env.dom maxL = []) :
    scrapeAndStore maxL now env db
      = (db, .ok { success := true, count := 0, persistCalled := false }) := by
  simp [scrapeAndStore, FacebookScraper.scrape, h1, h2, h3, h4, normalizeAll]

/-- Witness for `scrapeAndStore_empty_ok` on a page with no anchors. -/
theorem scrapeAndStore_empty_ok_witness :
    scrapeAndStore 50 3 envEmptyPage []
      = ([], .ok { success := true, count := 0, persistCalled := false }) :=
  scrapeAndStore_empty_ok 50 3 envEmptyPage [] rfl rfl rfl rfl

/-! ## C9 — soft delete -/

/-- An active stored row (timestamps 0). -/
def row0 : Row :=
  { id := 1, title := "2020 Toyota Corolla Altis", price := .val 850000,
    currency := "PHP", year := some 2020, mileage := none,
    location := some "Manila",
    source_url := "https://www.facebook.com/marketplace/item/111",
    listing_id := some "111", image_url := none, description := none,
    created_at := 0, updated_at := 0, last_scraped_at := 0, is_active := true }

/-- C9 (counterexample to the claim as stated): soft delete does not leave
every other listing field unchanged — the migration's
`update_car_listings_updated_at` trigger refreshes `updated_at` on the
`UPDATE`. Deleting `row0` (whose `updated_at` is 0) at time 5 yields a row
whose `updated_at` is 5. -/
theorem softDelete_touches_updated_at :
    (CarListingModel.delete 5 [row0] 1).1.map (fun r => r.updated_at) = [5]
    ∧ row0.updated_at = 0
    ∧ (CarListingModel.delete 5 [row0] 1).2 = true :=
  ⟨rfl, rfl, rfl⟩

/-- C9 (amended): `CarListingModel.delete` never removes a row: the call
returns true iff a row with the given id exists, and the table is changed
pointwise — a row with the given id gets `is_active := false` and (by the
`updated_at` trigger) `updated_at := now`, while all of its other fields
and all other rows are unchanged; in particular, when no row matches, the
table is unchanged and the call returns false. -/
theorem softDelete_spec (now : Nat) (db : DB) (id : Nat) :
    ((CarListingModel.delete now db id).2 = true ↔ ∃ r ∈ db, r.id = id)
    ∧ ∀ i : Nat, (CarListingModel.delete now db id).1[i]?
        = (db[i]?).map (fun r =>
            if r.id = id then { r with is_active := false, updated_at := now } else r) := by
  constructor
  · simp [CarListingModel.delete, List.any_eq_true]
  · intro i
    simp only [CarListingModel.delete, List.getElem?_map]
    cases db[i]? with
    | none => rfl
    | some r => by_cases h : r.id = id <;> simp [h]

/-! ## C10 — soft-deleted rows and the read / update / delete paths -/

/-- C10: for an id whose rows are all inactive, `findById` returns null
(`getListingById` surfaces 404), `update` touches nothing and returns null
(`updateListing` surfaces 404), yet `delete` still reports true
(`deleteListing` succeeds, not 404) — and the row still exists in the
table afterwards. -/
theorem inactive_rows_invisible (now : Nat) (db : DB) (id : Nat)
    (u : CarListingModel.UpdateFields)
    (hex : ∃ r ∈ db, r.id = id)
    (hinact : ∀ r ∈ db, r.id = id → r.is_active = false)
    (hu : u.hasField = true) :
    CarListingModel.findById db id = none
    ∧ getListingById db id = .error 404
    ∧ CarListingModel.update now db id u = .ok (db, none)
    ∧ updateListingStatus now db id u = .error 404
    ∧ (CarListingModel.delete now db id).2 = true
    ∧ (deleteListing now db id).2 = .ok ()
    ∧ ∃ r ∈ (CarListingModel.delete now db id).1, r.id = id := by
  have hpred : ∀ r ∈ db, (r.id == id && r.is_active) = false := by
    intro r hr
    by_cases h : r.id = id
    · simp [h, hinact r hr h]
    · simp [h]
  have hfind : CarListingModel.findById db id = none := by
    rw [CarListingModel.findById, List.find?_eq_none]
    intro r hr
    simp [hpred r hr]
  have hdel2 : (CarListingModel.delete now db id).2 = true := by
    rcases hex with ⟨r, hr, hid⟩
    simp only [CarListingModel.delete, List.any_eq_true]
    exact ⟨r, hr, by simp [hid]⟩
  have hupd : CarListingModel.update now db id u = .ok (db, none) := by
    rw [CarListingModel.update, if_pos hu]
    have hmap : db.map (fun r => if r.id == id && r.is_active
        then CarListingModel.applyUpdate now u r else r) = db := by
      have h1 : db.map (fun r => if r.id == id && r.is_active
          then CarListingModel.applyUpdate now u r else r) = db.map (fun r => r) :=
        List.map_congr_left (fun r hr => by simp [hpred r hr])
      simpa using h1
    have hfind' : db.find? (fun r => r.id == id && r.is_active) = none := by
      rw [List.find?_eq_none]
      intro r hr
      simp [hpred r hr]
    rw [hmap, hfind']
    rfl
  refine ⟨hfind, ?_, hupd, ?_, hdel2, ?_, ?_⟩
  · simp [getListingById, hfind]
  · simp [updateListingStatus, hupd]
  · simp [deleteListing, hdel2]
  · rcases hex with ⟨r, hr, hid⟩
    refine ⟨if r.id == id then { r with is_active := false, updated_at := now } else r,
      List.mem_map_of_mem _ hr, ?_⟩
    by_cases h : r.id = id <;> simp [h, hid]

/-- An inactive stored row. -/
def inactiveRow : Row := { row0 with is_active := false }

/-- A valid update payload. -/
def titleUpdate : CarListingModel.UpdateFields := { title := some "Updated car title" }

/-- Witness for `inactive_rows_invisible` on a one-row table whose row is
inactive. -/
theorem inactive_rows_invisible_witness :
    CarListingModel.findById [inactiveRow] 1 = none
    ∧ getListingById [inactiveRow] 1 = .error 404
    ∧ CarListingModel.update 9 [inactiveRow] 1 titleUpdate = .ok ([inactiveRow], none)
    ∧ updateListingStatus 9 [inactiveRow] 1 titleUpdate = .error 404
    ∧ (CarListingModel.delete 9 [inactiveRow] 1).2 = true
    ∧ (deleteListing 9 [inactiveRow] 1).2 = .ok ()
    ∧ ∃ r ∈ (CarListingModel.delete 9 [inactiveRow] 1).1, r.id = 1 :=
  inactive_rows_invisible 9 [inactiveRow] 1 titleUpdate
    (by exact ⟨inactiveRow, by simp, rfl⟩) (by decide) (by decide)

/-! ## C5 — one candidate per distinct sourceId -/

/-- Any candidate emitted by `candidateOf` carries exactly the listing id
parsed out of the anchor's URL. -/
theorem candidateOf_listing_id (a : AnchorEl) (lid : String) (cand : RawCandidate)
    (h : candidateOf a lid = some cand) : cand.listing_id = lid := by
  unfold candidateOf at h
  rcases hcont : a.container with _ | cont
  · rw [hcont] at h
    exact Option.noConfusion h
  · rw [hcont] at h
    simp only at h
    rcases hpt : ((cont.spanTexts.map String.trim).filter
        fun t => 0 < t.length).find? isPriceText with _ | p
    · rw [hpt] at h
      exact Option.noConfusion h
    · rw [hpt] at h
      simp only at h
      rcases htt : ((cont.spanTexts.map String.trim).filter
          fun t => 0 < t.length).find? (isTitleText (some p)) with _ | t
      · rw [htt] at h
        exact Option.noConfusion h
      · rw [htt] at h
        simp only at h
        by_cases hh : a.href = ""
        · rw [if_pos hh] at h
          exact Option.noConfusion h
        · rw [if_neg hh] at h
          cases h
          rfl

/-- The dedup invariant: the accumulated results have pairwise distinct
listing ids, each already recorded in `seenIds`; one extractor step
preserves it. -/
theorem extractStep_inv (maxL : Nat) (seen : List String)
    (results : List RawCandidate) (a : AnchorEl)
    (h1 : results.Pairwise (fun x y => x.listing_id ≠ y.listing_id))
    (h2 : ∀ r ∈ results, r.listing_id ∈ seen) :
    (extractStep maxL (seen, results) a).2.Pairwise
        (fun x y => x.listing_id ≠ y.listing_id)
    ∧ ∀ r ∈ (extractStep maxL (seen, results) a).2,
        r.listing_id ∈ (extractStep maxL (seen, results) a).1 := by
  unfold extractStep
  cases hid : itemIdOf a.href.data with
  | none => exact ⟨h1, h2⟩
  | some idChars =>
    simp only
    by_cases hc : seen.contains (String.mk idChars)
    · simp only [hc, if_true]
      exact ⟨h1, h2⟩
    · have hnot : String.mk idChars ∉ seen := by
        simpa using hc
      simp only [hc, Bool.false_eq_true, if_false]
      by_cases hcap : maxL ≤ results.length
      · simp only [hcap, if_true]
        exact ⟨h1, fun r hr => List.mem_cons_of_mem _ (h2 r hr)⟩
      · simp only [hcap, if_false]
        cases hcand : candidateOf a (String.mk idChars) with
        | none => exact ⟨h1, fun r hr => List.mem_cons_of_mem _ (h2 r hr)⟩
        | some cand =>
          have hcid : cand.listing_id = String.mk idChars :=
            candidateOf_listing_id a _ cand hcand
          constructor
          · rw [List.pairwise_append]
            refine ⟨h1, List.pairwise_singleton _ _, ?_⟩
            intro x hx y hy
            rw [List.mem_singleton] at hy
            subst hy
            rw [hcid]
            intro hEq
            exact hnot (hEq ▸ h2 x hx)
          · intro r hr
            rcases List.mem_append.mp hr with hr | hr
            · exact List.mem_cons_of_mem _ (h2 r hr)
            · rw [List.mem_singleton] at hr
              subst hr
              rw [hcid]
              exact List.mem_cons_self _ _

/-- The invariant is preserved by the whole fold. -/
theorem extractFold_inv (maxL : Nat) :
    ∀ (links : List AnchorEl) (seen : List String) (results : List RawCandidate),
      results.Pairwise (fun x y => x.listing_id ≠ y.listing_id) →
      (∀ r ∈ results, r.listing_id ∈ seen) →
      (links.foldl (extractStep maxL) (seen, results)).2.Pairwise
        (fun x y => x.listing_id ≠ y.listing_id)
      ∧ ∀ r ∈ (links.foldl (extractStep maxL) (seen, results)).2,
          r.listing_id ∈ (links.foldl (extractStep maxL) (seen, results)).1
  | [], seen, results, h1, h2 => ⟨h1, h2⟩
  | a :: t, seen, results, h1, h2 => by
    have hstep := extractStep_inv maxL seen results a h1 h2
    have := extractFold_inv maxL t (extractStep maxL (seen, results) a).1
      (extractStep maxL (seen, results) a).2 hstep.1 hstep.2
    simpa [List.foldl_cons] using this

/-- C5: (a) for every input DOM and cap, a single extraction run never
emits two candidates with the same sourceId — the emitted candidates have
pairwise distinct `listing_id`s; and (b) an anchor whose listing id was
already seen is skipped outright: the extractor state is unchanged. -/
theorem extraction_dedup :
    (∀ (dom : Dom) (maxL : Nat),
      (extractListings dom maxL).Pairwise (fun x y => x.listing_id ≠ y.listing_id))
    ∧ ∀ (maxL : Nat) (seen : List String) (results : List RawCandidate)
        (a : AnchorEl) (idChars : List Char),
        itemIdOf a.href.data = some idChars → String.mk idChars ∈ seen →
        extractStep maxL (seen, results) a = (seen, results) := by
  constructor
  · intro dom maxL
    exact (extractFold_inv maxL _ [] [] (List.Pairwise.nil) (by simp)).1
  · intro maxL seen results a idChars hid hmem
    unfold extractStep
    rw [hid]
    simp only
    have hc : seen.contains (String.mk idChars) = true := by
      simpa using hmem
    rw [hc]
    simp

/-- A marketplace anchor for item 123 (first occurrence). -/
def anchorA : AnchorEl :=
  { href := "https://www.facebook.com/marketplace/item/123/?ref=a",
    container := some { spanTexts := ["  ₱1,250,000 ", "2020 Toyota Corolla Altis"],
                        img := none } }

/-- A second anchor pointing at the same item 123. -/
def anchorB : AnchorEl :=
  { href := "https://www.facebook.com/marketplace/item/123/?ref=b",
    container := some { spanTexts := ["₱999,999", "2019 Honda Civic RS Turbo"],
                        img := none } }

/-- Witness for `extraction_dedup`: a DOM with two anchors to the same item
yields pairwise-distinct ids, and a step on an anchor whose id is already
seen leaves the state untouched. -/
theorem extraction_dedup_witness :
    (extractListings [anchorA, anchorB] 50).Pairwise
        (fun x y => x.listing_id ≠ y.listing_id)
    ∧ extractStep 50 (["123"], []) anchorB = (["123"], []) :=
  ⟨extraction_dedup.1 [anchorA, anchorB] 50,
   extraction_dedup.2 50 ["123"] [] anchorB "123".data rfl (by decide)⟩

/-! ## C8 — normalization failures are contained per candidate -/

/-- C8: (a) a candidate whose price text fails to parse is simply dropped:
normalizing a batch with a failing candidate in the middle yields exactly
the normalization of the remaining candidates; (b) whenever the effectful
steps of the run succeed, the run result is `ok` — normalization failures
never fail the whole run. -/
theorem normalization_contained :
    (∀ (pre post : List RawCandidate) (bad : RawCandidate),
        normalizeListingData { title := bad.title, price_raw := bad.price_raw,
                               url := bad.url, image_url := bad.image_url } = none →
        normalizeAll (pre ++ bad :: post) = normalizeAll pre ++ normalizeAll post)
    ∧ ∀ (maxL : Nat) (env : ScrapeEnv),
        env.launchOk = true → env.navOk 0 = true → env.evalOk = true →
        (FacebookScraper.scrape maxL env).result
          = .ok (normalizeAll (extractListings env.dom maxL)) := by
  constructor
  · intro pre post bad hbad
    simp [normalizeAll, List.filterMap_append, List.filterMap_cons, hbad]
  · intro maxL env h1 h2 h3
    simp [FacebookScraper.scrape, h1, h2, h3]

/-- A candidate whose price text parses. -/
def okCand : RawCandidate :=
  { title := "2020 Toyota Corolla Altis", price_raw := "₱1,250,000",
    url := "https://www.facebook.com/marketplace/item/123",
    image_url := none, listing_id := "123" }

/-- A candidate whose price text has no digit group at all. -/
def badCand : RawCandidate :=
  { title := "Assorted car freebies available", price_raw := "Free",
    url := "https://www.facebook.com/marketplace/item/124",
    image_url := none, listing_id := "124" }

/-- Witness for `normalization_contained`: the malformed candidate is
dropped, its neighbours survive, and a run over an (empty) page is `ok`. -/
theorem normalization_contained_witness :
    normalizeAll ([okCand] ++ badCand :: []) = normalizeAll [okCand] ++ normalizeAll []
    ∧ (FacebookScraper.scrape 50 envEmptyPage).result
        = .ok (normalizeAll (extractListings envEmptyPage.dom 50)) :=
  ⟨normalization_contained.1 [okCand] [] badCand rfl,
   normalization_contained.2 50 envEmptyPage rfl rfl rfl⟩

/-! ## C3 — the normalized year field -/

/-- Any match returned by one attempt of the year regex consists of four
characters `(19|20)` followed by two digits. -/
theorem yearAt_shape (prev : Option Char) (l m : List Char)
    (h : yearAt prev l = some m) :
    ∃ c1 c2 c3 c4, m = [c1, c2, c3, c4]
      ∧ ((c1 = '1' ∧ c2 = '9') ∨ (c1 = '2' ∧ c2 = '0'))
      ∧ isAsciiDigit c3 = true ∧ isAsciiDigit c4 = true := by
  match l with
  | [] => exact Option.noConfusion h
  | [c1] => exact Option.noConfusion h
  | [c1, c2] => exact Option.noConfusion h
  | [c1, c2, c3] => exact Option.noConfusion h
  | c1 :: c2 :: c3 :: c4 :: rest =>
    simp only [yearAt] at h
    split at h
    · rename_i hguard
      cases h
      simp only [Bool.and_eq_true, Bool.or_eq_true, decide_eq_true_eq] at hguard
      obtain ⟨⟨⟨⟨hprev, h12⟩, h3⟩, h4⟩, hrest⟩ := hguard
      exact ⟨c1, c2, c3, c4, rfl, h12, h3, h4⟩
    · exact Option.noConfusion h

/-- Any match returned by the year scan consists of four characters
`(19|20)` followed by two digits. -/
theorem findYearMatch_shape (l : List Char) : ∀ (prev : Option Char) (m : List Char),
    findYearMatch prev l = some m →
    ∃ c1 c2 c3 c4, m = [c1, c2, c3, c4]
      ∧ ((c1 = '1' ∧ c2 = '9') ∨ (c1 = '2' ∧ c2 = '0'))
      ∧ isAsciiDigit c3 = true ∧ isAsciiDigit c4 = true := by
  induction l with
  | nil => intro prev m h; exact Option.noConfusion h
  | cons c rest ih =>
    intro prev m h
    rw [findYearMatch] at h
    cases hy : yearAt prev (c :: rest) with
    | none =>
      rw [hy] at h
      exact ih (some c) m h
    | some m' =>
      rw [hy] at h
      cases h
      exact yearAt_shape prev _ _ hy

/-- The integer value of a `(19|20)dd` match lies in `[1900, 2099]`. -/
theorem yearVal_bounds (c1 c2 c3 c4 : Char)
    (h12 : (c1 = '1' ∧ c2 = '9') ∨ (c1 = '2' ∧ c2 = '0'))
    (h3 : isAsciiDigit c3 = true) (h4 : isAsciiDigit c4 = true) :
    1900 ≤ digitsVal [c1, c2, c3, c4] ∧ digitsVal [c1, c2, c3, c4] ≤ 2099 := by
  have hb3 : 48 ≤ c3.toNat ∧ c3.toNat ≤ 57 := by
    simpa [isAsciiDigit, Bool.and_eq_true, decide_eq_true_eq] using h3
  have hb4 : 48 ≤ c4.toNat ∧ c4.toNat ≤ 57 := by
    simpa [isAsciiDigit, Bool.and_eq_true, decide_eq_true_eq] using h4
  have e1 : ('1' : Char).toNat = 49 := rfl
  have e9 : ('9' : Char).toNat = 57 := rfl
  have e2 : ('2' : Char).toNat = 50 := rfl
  have e0 : ('0' : Char).toNat = 48 := rfl
  rcases h12 with ⟨ha, hb⟩ | ⟨ha, hb⟩ <;> subst ha <;> subst hb <;>
    simp only [digitsVal, List.foldl, e1, e9, e2, e0] <;> omega

/-- C3 (amended): for every raw candidate accepted by normalization the
year field is either null or a four-digit integer between 1900 and 2099 —
the first `\b(19|20)\d{2}\b` match of the title, with no further
plausibility check at normalization time (the `1900 ≤ year ≤ current+1`
check exists only in `CarListingService.validateUpdateData`, on the
update path). -/
theorem year_plausible_range (r : RawData) (l : NormalizedListing)
    (h : normalizeListingData r = some l) :
    l.year = none ∨ ∃ y, l.year = some y ∧ 1900 ≤ y ∧ y ≤ 2099 := by
  have hy : l.year = parseYear r.title := by
    unfold normalizeListingData at h
    cases hp : parsePrice r.price_raw with
    | none => rw [hp] at h; exact Option.noConfusion h
    | some p => rw [hp] at h; cases h; rfl
  rw [hy]
  unfold parseYear
  cases hm : findYearMatch none r.title.data with
  | none => exact Or.inl rfl
  | some m =>
    obtain ⟨c1, c2, c3, c4, rfl, h12, h3, h4⟩ := findYearMatch_shape _ none m hm
    exact Or.inr ⟨digitsVal [c1, c2, c3, c4], rfl,
      (yearVal_bounds c1 c2 c3 c4 h12 h3 h4).1,
      (yearVal_bounds c1 c2 c3 c4 h12 h3 h4).2⟩

/-- A raw candidate whose title's first `(19|20)dd` match is 2099. -/
def yearCexRaw : RawData :=
  { title := "2099 Bugatti Vision Concept", price_raw := "PHP 100",
    url := "https://www.facebook.com/marketplace/item/99", image_url := none }

/-- C3 (counterexample to the claim as stated, current year 2026):
normalization accepts this candidate with `year = 2099`, which exceeds the
claimed bound `current year + 1 = 2027`; in particular a first-match year
outside the claimed range is not nulled out. -/
theorem year_unchecked_cex :
    (normalizeListingData yearCexRaw).map (fun l => l.year) = some (some 2099)
    ∧ ¬(2099 ≤ 2026 + 1) :=
  ⟨rfl, by decide⟩

/-- A raw candidate normalizing with year 2020. -/
def yearOkRaw : RawData :=
  { title := "2020 Toyota Corolla Altis", price_raw := "₱1,250,000",
    url := "https://www.facebook.com/marketplace/item/123", image_url := none }

/-- The normalization of `yearOkRaw`. -/
def yearOkListing : NormalizedListing :=
  { title := "2020 Toyota Corolla Altis", price := some 1250000,
    currency := "PHP", year := some 2020, mileage := none,
    location := "Manila",
    source_url := "https://www.facebook.com/marketplace/item/123",
    listing_id := some "123", image_url := none, description := none }

/-- Witness for `year_plausible_range` at `yearOkRaw`. -/
theorem year_plausible_range_witness :
    normalizeListingData yearOkRaw = some yearOkListing
    ∧ (yearOkListing.year = none
        ∨ ∃ y, yearOkListing.year = some y ∧ 1900 ≤ y ∧ y ≤ 2099) :=
  ⟨rfl, year_plausible_range yearOkRaw yearOkListing rfl⟩

/-! ## C4 — `parsePrice` -/

/-- A digit-or-comma character is not an uppercase letter. -/
theorem not_upper_of_digitComma {c : Char} (h : isDigitComma c = true) :
    isUpperAZ c = false := by
  simp only [isDigitComma, isAsciiDigit, Bool.or_eq_true, Bool.and_eq_true,
    decide_eq_true_eq] at h
  rcases h with h | h
  · rw [Bool.eq_false_iff]
    simp only [ne_eq, isUpperAZ, Bool.and_eq_true, decide_eq_true_eq]
    omega
  · subst h
    rfl

/-- A price separator character is not an uppercase letter. -/
theorem not_upper_of_priceSep {c : Char} (h : isPriceSep c = true) :
    isUpperAZ c = false := by
  simp only [isPriceSep, isJsSpace, Bool.or_eq_true, decide_eq_true_eq] at h
  casesm* _ ∨ _ <;> subst_vars <;> rfl

/-- A digit-or-comma character is not a price separator. -/
theorem not_priceSep_of_digitComma {c : Char} (h : isDigitComma c = true) :
    isPriceSep c = false := by
  simp only [isDigitComma, isAsciiDigit, Bool.or_eq_true, Bool.and_eq_true,
    decide_eq_true_eq] at h
  rw [Bool.eq_false_iff]
  simp only [ne_eq, isPriceSep, isJsSpace, Bool.or_eq_true, decide_eq_true_eq]
  intro hcon
  rcases h with h | h
  · casesm* _ ∨ _ <;> subst_vars <;> revert h <;> decide
  · subst h
    exact absurd hcon (by decide)

/-- `takeWhile` over an append whose left part satisfies `p` and whose
right part starts (if at all) with a failing character. -/
theorem takeWhile_app_eq {α} (p : α → Bool) (xs ys : List α)
    (hx : ∀ c ∈ xs, p c = true) (hy : ∀ c, ys.head? = some c → p c = false) :
    (xs ++ ys).takeWhile p = xs := by
  induction xs with
  | nil =>
    cases ys with
    | nil => rfl
    | cons c t => simp [List.takeWhile_cons, hy c rfl]
  | cons x xs ih =>
    simp [List.takeWhile_cons, hx x (List.mem_cons_self _ _),
      ih (fun c hc => hx c (List.mem_cons_of_mem _ hc))]

/-- `dropWhile` over an append whose left part satisfies `p` and whose
right part starts (if at all) with a failing character. -/
theorem dropWhile_app_eq {α} (p : α → Bool) (xs ys : List α)
    (hx : ∀ c ∈ xs, p c = true) (hy : ∀ c, ys.head? = some c → p c = false) :
    (xs ++ ys).dropWhile p = ys := by
  induction xs with
  | nil =>
    cases ys with
    | nil => rfl
    | cons c t => simp [List.dropWhile_cons, hy c rfl]
  | cons x xs ih =>
    simp [List.dropWhile_cons, hx x (List.mem_cons_self _ _),
      ih (fun c hc => hx c (List.mem_cons_of_mem _ hc))]

/-- `sepDigits` on a separator run followed by a digit-comma group. -/
theorem sepDigits_app (sep grp rest : List Char)
    (hs : ∀ c ∈ sep, isPriceSep c = true)
    (hg : grp ≠ []) (hg2 : ∀ c ∈ grp, isDigitComma c = true)
    (hr : ∀ c, rest.head? = some c → isDigitComma c = false) :
    sepDigits (sep ++ (grp ++ rest)) = some grp := by
  have hy : ∀ c, (grp ++ rest).head? = some c → isPriceSep c = false := by
    intro c hc
    cases grp with
    | nil => exact absurd rfl hg
    | cons g t =>
      simp only [List.cons_append, List.head?_cons, Option.some.injEq] at hc
      subst hc
      exact not_priceSep_of_digitComma (hg2 g (List.mem_cons_self _ _))
  have hdrop : (sep ++ (grp ++ rest)).dropWhile isPriceSep = grp ++ rest :=
    dropWhile_app_eq _ _ _ hs hy
  have htake : (grp ++ rest).takeWhile isDigitComma = grp :=
    takeWhile_app_eq _ _ _ hg2 hr
  have hne : grp.isEmpty = false := by
    cases grp with
    | nil => exact absurd rfl hg
    | cons g t => rfl
  unfold sepDigits
  rw [hdrop]
  simp [htake, hne]

/-- When the head is not an uppercase letter, the optional `([A-Z]{3})?`
group matches empty and the attempt is just `sepDigits`. -/
theorem tryPriceAt_no_upper (L : List Char)
    (h : ∀ c, L.head? = some c → isUpperAZ c = false) :
    tryPriceAt L = (sepDigits L).map (fun g => (none, g)) := by
  match L with
  | [] => rfl
  | [c1] => rfl
  | [c1, c2] => rfl
  | c1 :: c2 :: c3 :: t =>
    have h1 : isUpperAZ c1 = false := h c1 rfl
    simp [tryPriceAt, h1]

/-- A successful attempt at position 0 is the leftmost match. -/
theorem findPriceMatch_of_head (L : List Char) (m : Option (List Char) × List Char)
    (hne : L ≠ []) (h : tryPriceAt L = some m) : findPriceMatch L = some m := by
  cases L with
  | nil => exact absurd rfl hne
  | cons c t => simp [findPriceMatch, h]

/-- `sepDigits` fails on text without digit-or-comma characters. -/
theorem sepDigits_none (L : List Char) (h : ∀ c ∈ L, isDigitComma c = false) :
    sepDigits L = none := by
  unfold sepDigits
  cases hT : L.dropWhile isPriceSep with
  | nil => simp
  | cons c t =>
    have hc : isDigitComma c = false :=
      h c ((List.dropWhile_sublist _).subset (hT ▸ List.mem_cons_self c t))
    simp [hT, List.takeWhile_cons, hc]

/-- One attempt fails on text without digit-or-comma characters. -/
theorem tryPriceAt_none (L : List Char) (h : ∀ c ∈ L, isDigitComma c = false) :
    tryPriceAt L = none := by
  match L with
  | [] => simp [tryPriceAt, sepDigits_none [] h]
  | [c1] => simp [tryPriceAt, sepDigits_none [c1] h]
  | [c1, c2] => simp [tryPriceAt, sepDigits_none [c1, c2] h]
  | c1 :: c2 :: c3 :: t =>
    have hfull : sepDigits (c1 :: c2 :: c3 :: t) = none := sepDigits_none _ h
    have hrest : sepDigits t = none :=
      sepDigits_none t (fun c hc => h c (by simp [hc]))
    by_cases hu : (isUpperAZ c1 && isUpperAZ c2 && isUpperAZ c3) = true
    · simp [tryPriceAt, hu, hrest, hfull]
    · simp only [tryPriceAt, Bool.not_eq_true] at hu ⊢
      rw [hu]
      simp [hfull]

/-- The scan fails on text without digit-or-comma characters. -/
theorem findPriceMatch_none (L : List Char) (h : ∀ c ∈ L, isDigitComma c = false) :
    findPriceMatch L = none := by
  induction L with
  | nil => rfl
  | cons c t ih =>
    have ht := ih (fun x hx => h x (List.mem_cons_of_mem _ hx))
    simp [findPriceMatch, tryPriceAt_none (c :: t) h, ht]

/-- The positive half of the price-format analysis: on a text that is an
optional 3-letter uppercase code, then separators, then a maximal
digit-comma group containing a digit, then anything not extending the
group, the match is found at position 0 with exactly those captures. -/
theorem parsePrice_pos (cur sep grp rest : List Char)
    (hcur : cur = [] ∨ (cur.length = 3 ∧ ∀ c ∈ cur, isUpperAZ c = true))
    (hs : ∀ c ∈ sep, isPriceSep c = true)
    (hg : grp ≠ []) (hg2 : ∀ c ∈ grp, isDigitComma c = true)
    (hd : ∃ c ∈ grp, isAsciiDigit c = true)
    (hr : ∀ c, rest.head? = some c → isDigitComma c = false) :
    parsePrice (String.mk (cur ++ (sep ++ (grp ++ rest)))) =
      some { currency := if cur.isEmpty then "PHP" else String.mk cur,
             amount := some (digitsVal (grp.filter isAsciiDigit)) } := by
  have hsep : sepDigits (sep ++ (grp ++ rest)) = some grp :=
    sepDigits_app sep grp rest hs hg hg2 hr
  have hfind : findPriceMatch (cur ++ (sep ++ (grp ++ rest)))
      = some (if cur.isEmpty then none else some cur, grp) := by
    rcases hcur with rfl | ⟨hlen, hup⟩
    · have hhead : ∀ c, (sep ++ (grp ++ rest)).head? = some c → isUpperAZ c = false := by
        intro c hc
        cases sep with
        | cons s t =>
          simp only [List.cons_append, List.head?_cons, Option.some.injEq] at hc
          subst hc
          exact not_upper_of_priceSep (hs s (List.mem_cons_self _ _))
        | nil =>
          cases grp with
          | nil => exact absurd rfl hg
          | cons g t =>
            simp only [List.nil_append, List.cons_append, List.head?_cons,
              Option.some.injEq] at hc
            subst hc
            exact not_upper_of_digitComma (hg2 g (List.mem_cons_self _ _))
      have htry : tryPriceAt (sep ++ (grp ++ rest)) = some (none, grp) := by
        rw [tryPriceAt_no_upper _ hhead, hsep]
        rfl
      have hne : sep ++ (grp ++ rest) ≠ [] := by
        intro hE
        rw [List.append_eq_nil, List.append_eq_nil] at hE
        exact hg hE.2.1
      rw [List.nil_append]
      rw [findPriceMatch_of_head _ _ hne htry]
      rfl
    · match cur, hlen with
      | [a, b, c], _ =>
        have ha : isUpperAZ a = true := hup a (by simp)
        have hb : isUpperAZ b = true := hup b (by simp)
        have hc : isUpperAZ c = true := hup c (by simp)
        have htry : tryPriceAt (a :: b :: c :: (sep ++ (grp ++ rest)))
            = some (some [a, b, c], grp) := by
          simp [tryPriceAt, ha, hb, hc, hsep]
        rw [show ([a, b, c] ++ (sep ++ (grp ++ rest)))
            = a :: b :: c :: (sep ++ (grp ++ rest)) from rfl]
        rw [findPriceMatch_of_head _ _ (by simp) htry]
        rfl
  have hfe : (grp.filter isAsciiDigit).isEmpty = false := by
    obtain ⟨c0, hc0, hd0⟩ := hd
    have : c0 ∈ grp.filter isAsciiDigit := List.mem_filter.mpr ⟨hc0, hd0⟩
    cases hF : grp.filter isAsciiDigit with
    | nil => rw [hF] at this; exact absurd this (List.not_mem_nil c0)
    | cons x xs => rfl
  unfold parsePrice
  rw [show (String.mk (cur ++ (sep ++ (grp ++ rest)))).data
      = cur ++ (sep ++ (grp ++ rest)) from rfl]
  rw [hfind]
  cases hE : cur.isEmpty with
  | true => simp [hE, hfe]
  | false => simp [hE, hfe]

/-- The negative half: text without any digit-or-comma character never
matches. -/
theorem parsePrice_neg (text : String)
    (h : ∀ c ∈ text.data, isDigitComma c = false) : parsePrice text = none := by
  unfold parsePrice
  rw [findPriceMatch_none text.data h]

/-- C4 (amended): (a) for every price text of the shape
`<3-letter code>? <separators/symbols> <digit group with commas> <rest>`,
`parsePrice` returns the group's digits with separators stripped and the
code as currency, defaulting to `'PHP'` when no code is present; (b) it
returns null for every text containing neither a digit nor a comma. (The
claim's stronger "null for every text with no digit group" fails: the
group regex is `[\d,]+`, so a comma alone matches — see the
counterexample.) -/
theorem parsePrice_spec :
    (∀ (cur sep grp rest : List Char),
      (cur = [] ∨ (cur.length = 3 ∧ ∀ c ∈ cur, isUpperAZ c = true)) →
      (∀ c ∈ sep, isPriceSep c = true) →
      grp ≠ [] → (∀ c ∈ grp, isDigitComma c = true) →
      (∃ c ∈ grp, isAsciiDigit c = true) →
      (∀ c, rest.head? = some c → isDigitComma c = false) →
      parsePrice (String.mk (cur ++ (sep ++ (grp ++ rest)))) =
        some { currency := if cur.isEmpty then "PHP" else String.mk cur,
               amount := some (digitsVal (grp.filter isAsciiDigit)) })
    ∧ ∀ (text : String),
        (∀ c ∈ text.data, isDigitComma c = false) → parsePrice text = none :=
  ⟨parsePrice_pos, parsePrice_neg⟩

/-- C4 (counterexample to the claim as stated): `","` contains no digit
group, yet `parsePrice` does not return null — the `[\d,]+` group matches
the bare comma, the currency defaults to `'PHP'`, and the amount is the
`NaN` of `parseFloat('')` (so the candidate is not discarded). -/
theorem parsePrice_comma_cex :
    parsePrice "," = some { currency := "PHP", amount := none }
    ∧ ∀ c ∈ (",").data, isAsciiDigit c = false :=
  ⟨rfl, by decide⟩

/-- Witness for `parsePrice_spec`: `"USD 45,000"` parses to currency `USD`
and amount 45000; `"Free"` has no digit group and yields null. -/
theorem parsePrice_spec_witness :
    parsePrice (String.mk ("USD".data ++ (" ".data ++ ("45,000".data ++ [])))) =
      some { currency := if ("USD".data).isEmpty then "PHP" else String.mk "USD".data,
             amount := some (digitsVal ("45,000".data.filter isAsciiDigit)) }
    ∧ parsePrice "Free" = none :=
  ⟨parsePrice_spec.1 "USD".data " ".data "45,000".data []
      (by decide) (by decide) (by decide) (by decide) (by decide)
      (fun _ h => Option.noConfusion h),
   parsePrice_spec.2 "Free" (by decide)⟩
